import Mathlib

/-
Verification of the probability-experiment simulator (simulation.py).

The pseudo-random source (Python `random` / `np.random`) is modelled as an
explicit stream of naturals together with a position; each draw reads the
stream at the current position modulo the requested bound and advances the
position.  This captures exactly the interface the code uses: uniform
integer sampling in a half-open range (`np.random.randint`) and in-place
Fisher-Yates shuffling of a finite sequence (`random.shuffle`).
-/

structure RNG where
  stream : Nat → Nat
  pos : Nat

def RNG.next (g : RNG) (bound : Nat) : Nat × RNG :=
  (g.stream g.pos % bound, ⟨g.stream, g.pos + 1⟩)

/-- Model of `np.random.randint(lo, hi, n)`: a list of `n` samples, each in
`[lo, hi)`, consumed from the stream in order. -/
def randintList (lo hi : Nat) : Nat → RNG → List Nat × RNG
  | 0, g => ([], g)
  | n + 1, g =>
    let v := (g.next (hi - lo)).1
    let rest := randintList lo hi n (g.next (hi - lo)).2
    ((lo + v) :: rest.1, rest.2)

structure CoinResult where
  heads : Nat
  tails : Nat
  raw_data : List Nat
deriving DecidableEq

structure DieResult where
  counts : List (Nat × Nat)
  raw_data : List Nat
deriving DecidableEq

structure CardResult where
  red : Nat
  black : Nat
  raw_data : List Nat
deriving DecidableEq

structure CompoundResult where
  both_heads : Nat
  at_least_one_head : Nat
  neither_head : Nat
  raw_data : List (Nat × Nat)
deriving DecidableEq

/-- The session state of `ProbabilitySimulator`: the `results` dictionary has
exactly four possible keys, one per experiment, each initially absent; the
global random state is carried alongside. -/
structure Session where
  coin_tosses : Option CoinResult
  die_rolls : Option DieResult
  card_draws : Option CardResult
  compound_events : Option CompoundResult
  rng : RNG

/-- Model of `ProbabilitySimulator.__init__`: empty `results` dictionary, a
freshly seeded random source. -/
def initSession (g : RNG) : Session :=
  ⟨none, none, none, none, g⟩

/-- Model of `ProbabilitySimulator.simulate_coin_tosses`: draws `num_tosses`
samples from {0,1}; `heads` is `np.sum(tosses)`; `tails` is
`num_tosses - heads`; the result is stored under the `coin_tosses` key. -/
def simulate_coin_tosses (s : Session) (num_tosses : Nat) : CoinResult × Session :=
  let p := randintList 0 2 num_tosses s.rng
  let heads_count := p.1.sum
  let tails_count := num_tosses - heads_count
  let r : CoinResult := ⟨heads_count, tails_count, p.1⟩
  (r, { s with coin_tosses := some r, rng := p.2 })

lemma randintList_length (lo hi : Nat) : ∀ (n : Nat) (g : RNG),
    (randintList lo hi n g).1.length = n := by
  intro n
  induction n with
  | zero => intro g; rfl
  | succ n ih => intro g; simp [randintList, ih]

lemma randintList_mem (lo hi : Nat) (hlt : lo < hi) : ∀ (n : Nat) (g : RNG),
    ∀ x ∈ (randintList lo hi n g).1, lo ≤ x ∧ x < hi := by
  intro n
  induction n with
  | zero => intro g x hx; simp [randintList] at hx
  | succ n ih =>
    intro g x hx
    simp only [randintList, List.mem_cons] at hx
    rcases hx with h | h
    · subst h
      have hmod : (RNG.next g (hi - lo)).1 < hi - lo := by
        unfold RNG.next
        exact Nat.mod_lt _ (by omega)
      omega
    · exact ih _ x h

lemma sum_eq_count_one (l : List Nat) (h : ∀ x ∈ l, x < 2) :
    l.sum = List.count 1 l := by
  induction l with
  | nil => rfl
  | cons x t ih =>
    have hx : x < 2 := h x (by simp)
    have ih' := ih (fun y hy => h y (List.mem_cons_of_mem x hy))
    simp only [List.sum_cons, List.count_cons]
    interval_cases x <;> simp <;> omega

lemma sum_le_length_of_lt_two (l : List Nat) (h : ∀ x ∈ l, x < 2) :
    l.sum ≤ l.length := by
  induction l with
  | nil => simp
  | cons x t ih =>
    have hx : x < 2 := h x (by simp)
    have ih' := ih (fun y hy => h y (List.mem_cons_of_mem x hy))
    simp only [List.sum_cons, List.length_cons]
    omega

/-- Claim C3: for every num_tosses >= 0, simulate_coin_tosses returns a
Result with heads + tails = num_tosses, heads <= num_tosses,
len(raw_data) = num_tosses, and heads equal to the count of 1s in raw_data;
in particular with 0 tosses the counts are 0 and raw_data is empty. -/
theorem coin_tosses_spec (s : Session) (num_tosses : Nat) :
    (simulate_coin_tosses s num_tosses).1.heads +
      (simulate_coin_tosses s num_tosses).1.tails = num_tosses ∧
    (simulate_coin_tosses s num_tosses).1.heads ≤ num_tosses ∧
    (simulate_coin_tosses s num_tosses).1.raw_data.length = num_tosses ∧
    (simulate_coin_tosses s num_tosses).1.heads =
      List.count 1 (simulate_coin_tosses s num_tosses).1.raw_data ∧
    (simulate_coin_tosses s 0).1.heads = 0 ∧
    (simulate_coin_tosses s 0).1.tails = 0 ∧
    (simulate_coin_tosses s 0).1.raw_data = [] := by
  have hmem : ∀ x ∈ (randintList 0 2 num_tosses s.rng).1, x < 2 := by
    intro x hx
    exact (randintList_mem 0 2 (by omega) num_tosses s.rng x hx).2
  have hlen : (randintList 0 2 num_tosses s.rng).1.length = num_tosses :=
    randintList_length 0 2 num_tosses s.rng
  have hle : (randintList 0 2 num_tosses s.rng).1.sum ≤ num_tosses := by
    have := sum_le_length_of_lt_two _ hmem
    omega
  refine ⟨?_, ?_, ?_, ?_, rfl, rfl, rfl⟩
  · simp only [simulate_coin_tosses]
    omega
  · exact hle
  · exact hlen
  · exact sum_eq_count_one _ hmem

/-- Model of `ProbabilitySimulator.simulate_die_rolls`: draws `num_rolls`
samples from {1..6}; the counts dictionary is built by
`{face: Counter(rolls).get(face, 0) for face in range(1, 7)}`, i.e. an
association list over faces 1..6 whose value at each face is the number of
occurrences of that face in the rolls. -/
def simulate_die_rolls (s : Session) (num_rolls : Nat) : DieResult × Session :=
  let p := randintList 1 7 num_rolls s.rng
  let results := (List.range' 1 6).map (fun face => (face, List.count face p.1))
  let r : DieResult := ⟨results, p.1⟩
  (r, { s with die_rolls := some r, rng := p.2 })

lemma count_faces_sum (rolls : List Nat) (h : ∀ x ∈ rolls, 1 ≤ x ∧ x ≤ 6) :
    ((List.range' 1 6).map (fun face => List.count face rolls)).sum = rolls.length := by
  induction rolls with
  | nil => rfl
  | cons x t ih =>
    have hx : 1 ≤ x ∧ x ≤ 6 := h x (by simp)
    have ih' := ih (fun y hy => h y (List.mem_cons_of_mem x hy))
    have e : List.range' 1 6 = [1, 2, 3, 4, 5, 6] := rfl
    rw [e] at ih' ⊢
    simp only [List.map_cons, List.map_nil, List.sum_cons, List.sum_nil,
      List.count_cons, List.length_cons] at ih' ⊢
    obtain ⟨hx1, hx6⟩ := hx
    interval_cases x <;> simp <;> omega

/-- Claim C4: for every num_rolls >= 0, simulate_die_rolls returns a counts
mapping whose key list is exactly [1,2,3,4,5,6] (every face present, even at
count zero and even when num_rolls = 0), with the counts summing to
num_rolls = len(raw_data) and every raw_data element in [1,6]. -/
theorem die_rolls_spec (s : Session) (num_rolls : Nat) :
    (simulate_die_rolls s num_rolls).1.counts.map Prod.fst = [1, 2, 3, 4, 5, 6] ∧
    ((simulate_die_rolls s num_rolls).1.counts.map Prod.snd).sum = num_rolls ∧
    (simulate_die_rolls s num_rolls).1.raw_data.length = num_rolls ∧
    ∀ x ∈ (simulate_die_rolls s num_rolls).1.raw_data, 1 ≤ x ∧ x ≤ 6 := by
  have hmem : ∀ x ∈ (randintList 1 7 num_rolls s.rng).1, 1 ≤ x ∧ x ≤ 6 := by
    intro x hx
    have := randintList_mem 1 7 (by omega) num_rolls s.rng x hx
    omega
  have hlen : (randintList 1 7 num_rolls s.rng).1.length = num_rolls :=
    randintList_length 1 7 num_rolls s.rng
  refine ⟨?_, ?_, hlen, hmem⟩
  · simp [simulate_die_rolls, List.map_map]
    rfl
  · show (((List.range' 1 6).map
        (fun face => (face, List.count face (randintList 1 7 num_rolls s.rng).1))).map
        Prod.snd).sum = num_rolls
    rw [List.map_map]
    have := count_faces_sum (randintList 1 7 num_rolls s.rng).1 hmem
    simpa [Function.comp] using this.trans hlen

/-- Model of the swap `x[i], x[j] = x[j], x[i]` used by `random.shuffle`. -/
def listSwap (l : List Nat) (i j : Nat) : List Nat :=
  (l.set i (l.getD j 0)).set j (l.getD i 0)

/-- Model of the Fisher-Yates loop of `random.shuffle`: for `i` from
`len - 1` down to `1`, draw `j` uniformly in `[0, i]` and swap positions
`i` and `j`.  The recursion parameter is the current index `i`. -/
def shuffleAux : Nat → List Nat → RNG → List Nat × RNG
  | 0, l, g => (l, g)
  | k + 1, l, g =>
    let j := (g.next (k + 2)).1
    shuffleAux k (listSwap l (k + 1) j) (g.next (k + 2)).2

def shuffle (l : List Nat) (g : RNG) : List Nat × RNG :=
  shuffleAux (l.length - 1) l g

/-- The deck `list(range(1, 53))`: cards 1..26 are red, 27..52 black. -/
def deck : List Nat := List.range' 1 52

/-- Model of `ProbabilitySimulator.simulate_card_draws`: shuffle the deck,
take the slice `deck[:num_draws]`, count red cards by the `card <= 26`
threshold, and set `black = num_draws - red`. -/
def simulate_card_draws (s : Session) (num_draws : Nat) : CardResult × Session :=
  let p := shuffle deck s.rng
  let draws := p.1.take num_draws
  let red_count := draws.countP (fun card => decide (card ≤ 26))
  let black_count := num_draws - red_count
  let r : CardResult := ⟨red_count, black_count, draws⟩
  (r, { s with card_draws := some r, rng := p.2 })

lemma listSwap_length (l : List Nat) (i j : Nat) :
    (listSwap l i j).length = l.length := by
  simp [listSwap]

lemma listSwap_perm (l : List Nat) (i j : Nat) (hi : i < l.length) (hj : j < l.length) :
    (listSwap l i j).Perm l := by
  rw [List.perm_iff_count]
  intro a
  have hgdj : l.getD j 0 = l[j] := List.getD_eq_getElem l 0 hj
  have hgdi : l.getD i 0 = l[i] := List.getD_eq_getElem l 0 hi
  have hj1 : j < (l.set i (l.getD j 0)).length := by simpa using hj
  have hget : (l.set i (l.getD j 0))[j] = l[j] := by
    rw [List.getElem_set]
    split
    · exact hgdj
    · rfl
  unfold listSwap
  rw [List.count_set _ _ _ _ hj1, List.count_set _ _ _ _ hi, hget, hgdi, hgdj]
  by_cases h1 : l[i] = a
  · have hC : 1 ≤ List.count a l := List.count_pos_iff.mpr (h1 ▸ List.getElem_mem hi)
    by_cases h2 : l[j] = a <;> simp [h1, h2] <;> omega
  · by_cases h2 : l[j] = a <;> simp [h1, h2]

lemma shuffleAux_perm : ∀ (k : Nat) (l : List Nat) (g : RNG), k < l.length →
    ((shuffleAux k l g).1).Perm l := by
  intro k
  induction k with
  | zero => intro l g _; exact List.Perm.refl l
  | succ k ih =>
    intro l g hk
    have hj : (g.next (k + 2)).1 < k + 2 := by
      unfold RNG.next
      exact Nat.mod_lt _ (by omega)
    have hswap : (listSwap l (k + 1) (g.next (k + 2)).1).Perm l :=
      listSwap_perm l (k + 1) (g.next (k + 2)).1 hk (by omega)
    have hlen : (listSwap l (k + 1) (g.next (k + 2)).1).length = l.length :=
      listSwap_length l (k + 1) (g.next (k + 2)).1
    have ihk := ih (listSwap l (k + 1) (g.next (k + 2)).1) (g.next (k + 2)).2
      (by omega)
    show ((shuffleAux k (listSwap l (k + 1) (g.next (k + 2)).1) (g.next (k + 2)).2).1).Perm l
    exact ihk.trans hswap

lemma shuffle_perm (l : List Nat) (g : RNG) : ((shuffle l g).1).Perm l := by
  unfold shuffle
  rcases l with _ | ⟨a, t⟩
  · exact List.Perm.refl _
  · exact shuffleAux_perm t.length (a :: t) g (by simp)

lemma deck_nodup : deck.Nodup := List.nodup_range' 1 52

lemma deck_mem_bounds : ∀ x ∈ deck, 1 ≤ x ∧ x ≤ 52 := by decide

lemma deck_red_count : deck.countP (fun x => decide (x ≤ 26)) = 26 := by decide

lemma shuffled_deck_facts (g : RNG) :
    ((shuffle deck g).1).Perm deck ∧ (shuffle deck g).1.length = 52 ∧
    (shuffle deck g).1.Nodup ∧ ∀ x ∈ (shuffle deck g).1, 1 ≤ x ∧ x ≤ 52 := by
  have hperm := shuffle_perm deck g
  refine ⟨hperm, ?_, ?_, ?_⟩
  · rw [hperm.length_eq]; rfl
  · exact hperm.nodup_iff.mpr deck_nodup
  · intro x hx
    exact deck_mem_bounds x (hperm.mem_iff.mp hx)

/-- Claim C5: for every num_draws with 0 <= num_draws <= 52,
simulate_card_draws returns a Result with red + black = num_draws =
len(raw_data), raw_data consisting of num_draws pairwise-distinct values in
[1,52] (a prefix of a permutation of the 52-card deck), and red equal to the
count of raw_data values in [1,26]. -/
theorem card_draws_spec (s : Session) (num_draws : Nat) (h : num_draws ≤ 52) :
    (simulate_card_draws s num_draws).1.red +
      (simulate_card_draws s num_draws).1.black = num_draws ∧
    (simulate_card_draws s num_draws).1.raw_data.length = num_draws ∧
    (simulate_card_draws s num_draws).1.raw_data.Nodup ∧
    (∀ x ∈ (simulate_card_draws s num_draws).1.raw_data, 1 ≤ x ∧ x ≤ 52) ∧
    (simulate_card_draws s num_draws).1.red =
      (simulate_card_draws s num_draws).1.raw_data.countP
        (fun x => decide (1 ≤ x ∧ x ≤ 26)) := by
  obtain ⟨hperm, hlen52, hnodup, hmem⟩ := shuffled_deck_facts s.rng
  have hsub : ((shuffle deck s.rng).1.take num_draws).Sublist (shuffle deck s.rng).1 :=
    List.take_sublist _ _
  have hdlen : ((shuffle deck s.rng).1.take num_draws).length = num_draws := by
    rw [List.length_take]; omega
  have hdmem : ∀ x ∈ (shuffle deck s.rng).1.take num_draws, 1 ≤ x ∧ x ≤ 52 :=
    fun x hx => hmem x (hsub.mem hx)
  have hred_le : ((shuffle deck s.rng).1.take num_draws).countP
      (fun card => decide (card ≤ 26)) ≤ num_draws := by
    have := List.countP_le_length (fun card => decide (card ≤ 26))
      (l := (shuffle deck s.rng).1.take num_draws)
    omega
  refine ⟨?_, hdlen, List.Nodup.sublist hsub hnodup, hdmem, ?_⟩
  · show ((shuffle deck s.rng).1.take num_draws).countP (fun card => decide (card ≤ 26)) +
      (num_draws - ((shuffle deck s.rng).1.take num_draws).countP
        (fun card => decide (card ≤ 26))) = num_draws
    omega
  · show ((shuffle deck s.rng).1.take num_draws).countP (fun card => decide (card ≤ 26)) =
      ((shuffle deck s.rng).1.take num_draws).countP (fun x => decide (1 ≤ x ∧ x ≤ 26))
    refine List.countP_congr ?_
    intro x hx
    have := hdmem x hx
    simp only [decide_eq_true_eq]
    omega

/-- Witness for C5 at num_draws = 3 with the all-zeros stream. -/
theorem card_draws_spec_witness :
    (3 ≤ 52) ∧
    ((simulate_card_draws (initSession ⟨fun _ => 0, 0⟩) 3).1.red +
      (simulate_card_draws (initSession ⟨fun _ => 0, 0⟩) 3).1.black = 3 ∧
    (simulate_card_draws (initSession ⟨fun _ => 0, 0⟩) 3).1.raw_data.length = 3 ∧
    (simulate_card_draws (initSession ⟨fun _ => 0, 0⟩) 3).1.raw_data.Nodup ∧
    (∀ x ∈ (simulate_card_draws (initSession ⟨fun _ => 0, 0⟩) 3).1.raw_data,
      1 ≤ x ∧ x ≤ 52) ∧
    (simulate_card_draws (initSession ⟨fun _ => 0, 0⟩) 3).1.red =
      (simulate_card_draws (initSession ⟨fun _ => 0, 0⟩) 3).1.raw_data.countP
        (fun x => decide (1 ≤ x ∧ x ≤ 26))) :=
  ⟨by omega, card_draws_spec (initSession ⟨fun _ => 0, 0⟩) 3 (by omega)⟩

lemma card_overflow_core (s : Session) (num_draws : Nat) (h : 52 < num_draws) :
    (simulate_card_draws s num_draws).1.raw_data = (shuffle deck s.rng).1 ∧
    (simulate_card_draws s num_draws).1.raw_data.length = 52 ∧
    (simulate_card_draws s num_draws).1.red = 26 ∧
    (simulate_card_draws s num_draws).1.black = num_draws - 26 := by
  obtain ⟨hperm, hlen52, -, -⟩ := shuffled_deck_facts s.rng
  have htake : (shuffle deck s.rng).1.take num_draws = (shuffle deck s.rng).1 :=
    List.take_of_length_le (by omega)
  have hraw : (simulate_card_draws s num_draws).1.raw_data = (shuffle deck s.rng).1 := by
    show (shuffle deck s.rng).1.take num_draws = (shuffle deck s.rng).1
    exact htake
  have hred : (simulate_card_draws s num_draws).1.red = 26 := by
    show ((shuffle deck s.rng).1.take num_draws).countP (fun card => decide (card ≤ 26)) = 26
    rw [htake, hperm.countP_eq]
    exact deck_red_count
  have hblack : (simulate_card_draws s num_draws).1.black = num_draws - 26 := by
    show num_draws - ((shuffle deck s.rng).1.take num_draws).countP
      (fun card => decide (card ≤ 26)) = num_draws - 26
    rw [htake, hperm.countP_eq, deck_red_count]
  have hlen : (simulate_card_draws s num_draws).1.raw_data.length = 52 := by
    rw [hraw]
    exact hlen52
  exact ⟨hraw, hlen, hred, hblack⟩

/-- Claim C10: for every num_draws > 52, simulate_card_draws returns without
raising: raw_data is the whole shuffled 52-card deck (the slice silently
truncates), red = 26 (the count of values <= 26 in a permutation of 1..52),
black = num_draws - red, so red + black = num_draws holds but
red + black = len(raw_data) is violated. -/
theorem card_draws_overflow (s : Session) (num_draws : Nat) (h : 52 < num_draws) :
    (simulate_card_draws s num_draws).1.raw_data = (shuffle deck s.rng).1 ∧
    ((simulate_card_draws s num_draws).1.raw_data).Perm deck ∧
    (simulate_card_draws s num_draws).1.raw_data.length = 52 ∧
    (simulate_card_draws s num_draws).1.red = 26 ∧
    (simulate_card_draws s num_draws).1.black = num_draws - 26 ∧
    (simulate_card_draws s num_draws).1.red +
      (simulate_card_draws s num_draws).1.black = num_draws ∧
    (simulate_card_draws s num_draws).1.red +
      (simulate_card_draws s num_draws).1.black ≠
      (simulate_card_draws s num_draws).1.raw_data.length := by
  obtain ⟨hraw, hlen, hred, hblack⟩ := card_overflow_core s num_draws h
  have hperm := shuffle_perm deck s.rng
  refine ⟨hraw, ?_, hlen, hred, hblack, ?_, ?_⟩
  · rw [hraw]; exact hperm
  · rw [hred, hblack]; omega
  · rw [hred, hblack, hlen]; omega

/-- Witness for C10 at num_draws = 53 with the all-zeros stream. -/
theorem card_draws_overflow_witness :
    (52 < 53) ∧
    ((simulate_card_draws (initSession ⟨fun _ => 0, 0⟩) 53).1.raw_data =
      (shuffle deck (initSession ⟨fun _ => 0, 0⟩).rng).1 ∧
    ((simulate_card_draws (initSession ⟨fun _ => 0, 0⟩) 53).1.raw_data).Perm deck ∧
    (simulate_card_draws (initSession ⟨fun _ => 0, 0⟩) 53).1.raw_data.length = 52 ∧
    (simulate_card_draws (initSession ⟨fun _ => 0, 0⟩) 53).1.red = 26 ∧
    (simulate_card_draws (initSession ⟨fun _ => 0, 0⟩) 53).1.black = 53 - 26 ∧
    (simulate_card_draws (initSession ⟨fun _ => 0, 0⟩) 53).1.red +
      (simulate_card_draws (initSession ⟨fun _ => 0, 0⟩) 53).1.black = 53 ∧
    (simulate_card_draws (initSession ⟨fun _ => 0, 0⟩) 53).1.red +
      (simulate_card_draws (initSession ⟨fun _ => 0, 0⟩) 53).1.black ≠
      (simulate_card_draws (initSession ⟨fun _ => 0, 0⟩) 53).1.raw_data.length) :=
  ⟨by omega, card_draws_overflow (initSession ⟨fun _ => 0, 0⟩) 53 (by omega)⟩

/-- Counterexample to claim C1: at the invalid count num_draws = 53 (greater
than 52), simulate_card_draws does not reject the call; it returns a Result
whose counts are corrupted in exactly the sense the claim rules out:
red + black = 53 while only 52 cards were actually drawn. -/
theorem card_draws_no_rejection_at_53 :
    (simulate_card_draws (initSession ⟨fun _ => 0, 0⟩) 53).1.red +
      (simulate_card_draws (initSession ⟨fun _ => 0, 0⟩) 53).1.black = 53 ∧
    (simulate_card_draws (initSession ⟨fun _ => 0, 0⟩) 53).1.raw_data.length = 52 ∧
    (simulate_card_draws (initSession ⟨fun _ => 0, 0⟩) 53).1.red +
      (simulate_card_draws (initSession ⟨fun _ => 0, 0⟩) 53).1.black ≠
      (simulate_card_draws (initSession ⟨fun _ => 0, 0⟩) 53).1.raw_data.length := by
  obtain ⟨-, hlen, hred, hblack⟩ :=
    card_overflow_core (initSession ⟨fun _ => 0, 0⟩) 53 (by omega)
  refine ⟨?_, hlen, ?_⟩
  · rw [hred, hblack]
  · rw [hred, hblack, hlen]
    omega

/-- Amended claim C1: for num_draws > 52 the card-draw operation does not
reject; it silently truncates the draw to the 52-card deck and stores a
Result whose counts are corrupted: red + black = num_draws while
len(raw_data) = 52, so red + black differs from the number of cards
actually drawn. -/
theorem card_draws_silent_truncation (s : Session) (num_draws : Nat)
    (h : 52 < num_draws) :
    (simulate_card_draws s num_draws).1.red +
      (simulate_card_draws s num_draws).1.black = num_draws ∧
    (simulate_card_draws s num_draws).1.raw_data.length = 52 ∧
    (simulate_card_draws s num_draws).1.red +
      (simulate_card_draws s num_draws).1.black ≠
      (simulate_card_draws s num_draws).1.raw_data.length := by
  obtain ⟨-, hlen, hred, hblack⟩ := card_overflow_core s num_draws h
  refine ⟨?_, hlen, ?_⟩
  · rw [hred, hblack]; omega
  · rw [hred, hblack, hlen]; omega

/-- Witness for the amended C1 at num_draws = 60 with the successor stream. -/
theorem card_draws_silent_truncation_witness :
    (52 < 60) ∧
    ((simulate_card_draws (initSession ⟨fun i => i + 1, 0⟩) 60).1.red +
      (simulate_card_draws (initSession ⟨fun i => i + 1, 0⟩) 60).1.black = 60 ∧
    (simulate_card_draws (initSession ⟨fun i => i + 1, 0⟩) 60).1.raw_data.length = 52 ∧
    (simulate_card_draws (initSession ⟨fun i => i + 1, 0⟩) 60).1.red +
      (simulate_card_draws (initSession ⟨fun i => i + 1, 0⟩) 60).1.black ≠
      (simulate_card_draws (initSession ⟨fun i => i + 1, 0⟩) 60).1.raw_data.length) :=
  ⟨by omega, card_draws_silent_truncation (initSession ⟨fun i => i + 1, 0⟩) 60 (by omega)⟩

/-- Model of the trial loop of `simulate_compound_events`: per trial, two
coin flips are drawn in order; `both_heads` is incremented when both flips
are 1, `at_least_one_head` when either flip is 1; the pair is appended to
the raw data.  Returns ((both_heads, at_least_one_head, raw_data), rng). -/
def compoundLoop : Nat → RNG → (Nat × Nat × List (Nat × Nat)) × RNG
  | 0, g => ((0, 0, []), g)
  | n + 1, g =>
    let f1 := (g.next 2).1
    let g1 := (g.next 2).2
    let f2 := (g1.next 2).1
    let g2 := (g1.next 2).2
    let rest := compoundLoop n g2
    ((rest.1.1 + (if f1 = 1 ∧ f2 = 1 then 1 else 0),
      rest.1.2.1 + (if f1 = 1 ∨ f2 = 1 then 1 else 0),
      (f1, f2) :: rest.1.2.2), rest.2)

/-- Model of `ProbabilitySimulator.simulate_compound_events`: run the trial
loop, then set `neither_head = num_trials - at_least_one_head` once at the
end, and store the result under the `compound_events` key. -/
def simulate_compound_events (s : Session) (num_trials : Nat) :
    CompoundResult × Session :=
  let p := compoundLoop num_trials s.rng
  let r : CompoundResult :=
    ⟨p.1.1, p.1.2.1, num_trials - p.1.2.1, p.1.2.2⟩
  (r, { s with compound_events := some r, rng := p.2 })

lemma compoundLoop_counts : ∀ (n : Nat) (g : RNG),
    (compoundLoop n g).1.1 =
      (compoundLoop n g).1.2.2.countP (fun q => decide (q.1 = 1 ∧ q.2 = 1)) ∧
    (compoundLoop n g).1.2.1 =
      (compoundLoop n g).1.2.2.countP (fun q => decide (q.1 = 1 ∨ q.2 = 1)) ∧
    (compoundLoop n g).1.2.2.length = n := by
  intro n
  induction n with
  | zero => intro g; exact ⟨rfl, rfl, rfl⟩
  | succ n ih =>
    intro g
    obtain ⟨h1, h2, h3⟩ := ih ((g.next 2).2.next 2).2
    refine ⟨?_, ?_, ?_⟩ <;>
      simp only [compoundLoop, List.countP_cons, List.length_cons, h1, h2, h3] <;>
      split <;> simp_all

/-- Claim C6: for every num_trials >= 0, simulate_compound_events returns a
Result with both_heads <= at_least_one_head,
at_least_one_head + neither_head = num_trials = len(raw_data), both_heads
the count of pairs with both entries 1, at_least_one_head the count of pairs
with at least one entry 1, and neither_head = num_trials - at_least_one_head
computed once at the end. -/
theorem compound_events_spec (s : Session) (num_trials : Nat) :
    (simulate_compound_events s num_trials).1.both_heads ≤
      (simulate_compound_events s num_trials).1.at_least_one_head ∧
    (simulate_compound_events s num_trials).1.at_least_one_head +
      (simulate_compound_events s num_trials).1.neither_head = num_trials ∧
    (simulate_compound_events s num_trials).1.raw_data.length = num_trials ∧
    (simulate_compound_events s num_trials).1.both_heads =
      (simulate_compound_events s num_trials).1.raw_data.countP
        (fun q => decide (q.1 = 1 ∧ q.2 = 1)) ∧
    (simulate_compound_events s num_trials).1.at_least_one_head =
      (simulate_compound_events s num_trials).1.raw_data.countP
        (fun q => decide (q.1 = 1 ∨ q.2 = 1)) ∧
    (simulate_compound_events s num_trials).1.neither_head =
      num_trials - (simulate_compound_events s num_trials).1.at_least_one_head := by
  obtain ⟨h1, h2, h3⟩ := compoundLoop_counts num_trials s.rng
  have hmono : (compoundLoop num_trials s.rng).1.1 ≤
      (compoundLoop num_trials s.rng).1.2.1 := by
    rw [h1, h2]
    refine List.countP_mono_left ?_
    intro q hq hboth
    simp only [decide_eq_true_eq] at hboth ⊢
    exact Or.inl hboth.1
  have hle : (compoundLoop num_trials s.rng).1.2.1 ≤ num_trials := by
    rw [h2]
    have := List.countP_le_length (fun q => decide (q.1 = 1 ∨ q.2 = 1))
      (l := (compoundLoop num_trials s.rng).1.2.2)
    omega
  refine ⟨hmono, ?_, h3, h1, h2, rfl⟩
  show (compoundLoop num_trials s.rng).1.2.1 +
    (num_trials - (compoundLoop num_trials s.rng).1.2.1) = num_trials
  omega

/-- How a presentation call can fail: Python integer division by a zero
total raises `ZeroDivisionError`. -/
inductive PlotError where
  | zeroDivisionError
deriving DecidableEq

/-- Outcome of a presentation call that did not raise: either the early
return with the "no simulation has been run yet" message, or a rendered
chart payload. -/
inductive PlotOut (α : Type) where
  | noSimMessage (msg : String)
  | chart (c : α)
deriving DecidableEq

/-- Display payload of `plot_coin_tosses`.  The probability annotation is
`heads/total` computed on numpy integer scalars: when the total is zero,
numpy produces nan instead of raising, modelled as `none`. -/
structure CoinChart where
  labels : List String
  counts : List Nat
  prob_heads : Option ℚ
deriving DecidableEq

/-- Model of `ProbabilitySimulator.plot_coin_tosses`. -/
def plot_coin_tosses (s : Session) : Except PlotError (PlotOut CoinChart) :=
  match s.coin_tosses with
  | none => .ok (.noSimMessage "No coin toss simulation has been run yet.")
  | some results =>
    let counts := [results.heads, results.tails]
    let total := counts.sum
    let prob : Option ℚ :=
      if total = 0 then none else some ((results.heads : ℚ) / (total : ℚ))
    .ok (.chart ⟨["Heads", "Tails"], counts, prob⟩)

/-- Display payload of `plot_die_rolls`: the expected frequency `total/6`
never divides by a stored count, so no division guard is involved. -/
structure DieChart where
  faces : List Nat
  counts : List Nat
  expected : ℚ
deriving DecidableEq

/-- Model of `ProbabilitySimulator.plot_die_rolls`. -/
def plot_die_rolls (s : Session) : Except PlotError (PlotOut DieChart) :=
  match s.die_rolls with
  | none => .ok (.noSimMessage "No die roll simulation has been run yet.")
  | some dr =>
    let faces := dr.counts.map Prod.fst
    let counts := dr.counts.map Prod.snd
    let total := counts.sum
    .ok (.chart ⟨faces, counts, (total : ℚ) / 6⟩)

/-- Display payload of `plot_card_draws`. -/
structure CardChart where
  labels : List String
  counts : List Nat
  prob_red : ℚ
deriving DecidableEq

/-- Model of `ProbabilitySimulator.plot_card_draws`: the probability
annotation `red/total` is Python integer division, which raises
`ZeroDivisionError` when the total is zero. -/
def plot_card_draws (s : Session) : Except PlotError (PlotOut CardChart) :=
  match s.card_draws with
  | none => .ok (.noSimMessage "No card draw simulation has been run yet.")
  | some r =>
    let counts := [r.red, r.black]
    let total := counts.sum
    if total = 0 then .error .zeroDivisionError
    else .ok (.chart ⟨["Red Cards", "Black Cards"], counts,
      (r.red : ℚ) / (total : ℚ)⟩)

/-- Display payload of `plot_compound_events`. -/
structure CompoundChart where
  counts1 : List Nat
  counts2 : List Nat
  prob_both : ℚ
  prob_at_least_one : ℚ
deriving DecidableEq

/-- Model of `ProbabilitySimulator.plot_compound_events`: the probability
annotations divide by `total = sum(counts1)` with Python integers, raising
`ZeroDivisionError` when that total is zero.  (For every result the code
stores, `both_heads <= at_least_one_head`, so the Nat subtraction in
`counts1` agrees with the Python expression.) -/
def plot_compound_events (s : Session) : Except PlotError (PlotOut CompoundChart) :=
  match s.compound_events with
  | none => .ok (.noSimMessage "No compound event simulation has been run yet.")
  | some r =>
    let counts1 := [r.both_heads,
      r.at_least_one_head - r.both_heads + r.neither_head]
    let counts2 := [r.at_least_one_head, r.neither_head]
    let total := counts1.sum
    if total = 0 then .error .zeroDivisionError
    else .ok (.chart ⟨counts1, counts2, (r.both_heads : ℚ) / (total : ℚ),
      (r.at_least_one_head : ℚ) / (total : ℚ)⟩)

/-- Claim C7: for every session in which no result is stored for a given
experiment, that experiment's presentation operation reports the "no
simulation has been run yet" message and returns normally, with no error
and no access to the absent entry. -/
theorem plots_missing_result_message (s : Session) :
    (s.coin_tosses = none → plot_coin_tosses s =
      .ok (.noSimMessage "No coin toss simulation has been run yet.")) ∧
    (s.die_rolls = none → plot_die_rolls s =
      .ok (.noSimMessage "No die roll simulation has been run yet.")) ∧
    (s.card_draws = none → plot_card_draws s =
      .ok (.noSimMessage "No card draw simulation has been run yet.")) ∧
    (s.compound_events = none → plot_compound_events s =
      .ok (.noSimMessage "No compound event simulation has been run yet.")) := by
  refine ⟨?_, ?_, ?_, ?_⟩ <;> intro h
  · simp [plot_coin_tosses, h]
  · simp [plot_die_rolls, h]
  · simp [plot_card_draws, h]
  · simp [plot_compound_events, h]

/-- Witness for C7 on a freshly constructed session: all four presentation
operations return the message without erroring. -/
theorem plots_missing_result_message_witness :
    plot_coin_tosses (initSession ⟨fun _ => 0, 0⟩) =
      .ok (.noSimMessage "No coin toss simulation has been run yet.") ∧
    plot_die_rolls (initSession ⟨fun _ => 0, 0⟩) =
      .ok (.noSimMessage "No die roll simulation has been run yet.") ∧
    plot_card_draws (initSession ⟨fun _ => 0, 0⟩) =
      .ok (.noSimMessage "No card draw simulation has been run yet.") ∧
    plot_compound_events (initSession ⟨fun _ => 0, 0⟩) =
      .ok (.noSimMessage "No compound event simulation has been run yet.") :=
  ⟨(plots_missing_result_message (initSession ⟨fun _ => 0, 0⟩)).1 rfl,
   (plots_missing_result_message (initSession ⟨fun _ => 0, 0⟩)).2.1 rfl,
   (plots_missing_result_message (initSession ⟨fun _ => 0, 0⟩)).2.2.1 rfl,
   (plots_missing_result_message (initSession ⟨fun _ => 0, 0⟩)).2.2.2 rfl⟩

/-- Claim C2 fails on the code: after a zero-trial experiment, the
presentation operations do not report an explicit undefined probability.
`plot_card_draws` and `plot_compound_events` divide the stored counts by
the zero total and raise `ZeroDivisionError`, and `plot_coin_tosses`
evaluates the numpy division 0/0 (nan) instead of reporting "undefined". -/
theorem plots_zero_total_divide_by_zero :
    plot_card_draws ((simulate_card_draws (initSession ⟨fun _ => 0, 0⟩) 0).2) =
      .error .zeroDivisionError ∧
    plot_compound_events
        ((simulate_compound_events (initSession ⟨fun _ => 0, 0⟩) 0).2) =
      .error .zeroDivisionError ∧
    plot_coin_tosses ((simulate_coin_tosses (initSession ⟨fun _ => 0, 0⟩) 0).2) =
      .ok (.chart ⟨["Heads", "Tails"], [0, 0], none⟩) := by
  refine ⟨rfl, rfl, rfl⟩

/-- Claim C8: every experiment operation inserts-or-replaces only its own
fixed key, leaving the other three stored results unchanged; after a call
the own key holds exactly that call's Result, and after two successive
calls of the same experiment the key holds exactly the second call's
Result (no accumulation). -/
theorem experiments_overwrite_own_key_only (s : Session) (n m : Nat) :
    ((simulate_coin_tosses s n).2.die_rolls = s.die_rolls ∧
     (simulate_coin_tosses s n).2.card_draws = s.card_draws ∧
     (simulate_coin_tosses s n).2.compound_events = s.compound_events ∧
     (simulate_coin_tosses s n).2.coin_tosses = some (simulate_coin_tosses s n).1) ∧
    ((simulate_die_rolls s n).2.coin_tosses = s.coin_tosses ∧
     (simulate_die_rolls s n).2.card_draws = s.card_draws ∧
     (simulate_die_rolls s n).2.compound_events = s.compound_events ∧
     (simulate_die_rolls s n).2.die_rolls = some (simulate_die_rolls s n).1) ∧
    ((simulate_card_draws s n).2.coin_tosses = s.coin_tosses ∧
     (simulate_card_draws s n).2.die_rolls = s.die_rolls ∧
     (simulate_card_draws s n).2.compound_events = s.compound_events ∧
     (simulate_card_draws s n).2.card_draws = some (simulate_card_draws s n).1) ∧
    ((simulate_compound_events s n).2.coin_tosses = s.coin_tosses ∧
     (simulate_compound_events s n).2.die_rolls = s.die_rolls ∧
     (simulate_compound_events s n).2.card_draws = s.card_draws ∧
     (simulate_compound_events s n).2.compound_events =
       some (simulate_compound_events s n).1) ∧
    ((simulate_coin_tosses (simulate_coin_tosses s n).2 m).2.coin_tosses =
       some (simulate_coin_tosses (simulate_coin_tosses s n).2 m).1 ∧
     (simulate_die_rolls (simulate_die_rolls s n).2 m).2.die_rolls =
       some (simulate_die_rolls (simulate_die_rolls s n).2 m).1 ∧
     (simulate_card_draws (simulate_card_draws s n).2 m).2.card_draws =
       some (simulate_card_draws (simulate_card_draws s n).2 m).1 ∧
     (simulate_compound_events (simulate_compound_events s n).2 m).2.compound_events =
       some (simulate_compound_events (simulate_compound_events s n).2 m).1) :=
  ⟨⟨rfl, rfl, rfl, rfl⟩, ⟨rfl, rfl, rfl, rfl⟩, ⟨rfl, rfl, rfl, rfl⟩,
   ⟨rfl, rfl, rfl, rfl⟩, ⟨rfl, rfl, rfl, rfl⟩⟩

/-- Claim C9: each experiment operation is a deterministic function of the
random stream and the trial count: two sessions whose random states agree
produce identical Results (identical raw_data and derived counts), whatever
else is stored in them. -/
theorem experiments_deterministic (s t : Session) (n : Nat) (h : s.rng = t.rng) :
    (simulate_coin_tosses s n).1 = (simulate_coin_tosses t n).1 ∧
    (simulate_die_rolls s n).1 = (simulate_die_rolls t n).1 ∧
    (simulate_card_draws s n).1 = (simulate_card_draws t n).1 ∧
    (simulate_compound_events s n).1 = (simulate_compound_events t n).1 := by
  refine ⟨?_, ?_, ?_, ?_⟩ <;>
    simp only [simulate_coin_tosses, simulate_die_rolls, simulate_card_draws,
      simulate_compound_events, h]

/-- Witness for C9: two sessions with the same random state but different
stored results (one fresh, one holding a coin result) produce identical
Results for every experiment, here at trial count 2. -/
theorem experiments_deterministic_witness :
    (simulate_coin_tosses (initSession ⟨fun i => i, 0⟩) 2).1 =
      (simulate_coin_tosses
        { initSession ⟨fun i => i, 0⟩ with coin_tosses := some ⟨1, 0, [1]⟩ } 2).1 ∧
    (simulate_die_rolls (initSession ⟨fun i => i, 0⟩) 2).1 =
      (simulate_die_rolls
        { initSession ⟨fun i => i, 0⟩ with coin_tosses := some ⟨1, 0, [1]⟩ } 2).1 ∧
    (simulate_card_draws (initSession ⟨fun i => i, 0⟩) 2).1 =
      (simulate_card_draws
        { initSession ⟨fun i => i, 0⟩ with coin_tosses := some ⟨1, 0, [1]⟩ } 2).1 ∧
    (simulate_compound_events (initSession ⟨fun i => i, 0⟩) 2).1 =
      (simulate_compound_events
        { initSession ⟨fun i => i, 0⟩ with coin_tosses := some ⟨1, 0, [1]⟩ } 2).1 :=
  experiments_deterministic (initSession ⟨fun i => i, 0⟩)
    { initSession ⟨fun i => i, 0⟩ with coin_tosses := some ⟨1, 0, [1]⟩ } 2 rfl

/-- Witness for C4 at num_rolls = 2 with the identity stream: the counts
mapping lists all six faces, the counts sum to 2, and both rolls lie in
[1,6]. -/
theorem die_rolls_spec_witness :
    (simulate_die_rolls (initSession ⟨fun i => i, 0⟩) 2).1.counts.map Prod.fst =
      [1, 2, 3, 4, 5, 6] ∧
    ((simulate_die_rolls (initSession ⟨fun i => i, 0⟩) 2).1.counts.map Prod.snd).sum = 2 ∧
    (simulate_die_rolls (initSession ⟨fun i => i, 0⟩) 2).1.raw_data.length = 2 ∧
    (∀ x ∈ (simulate_die_rolls (initSession ⟨fun i => i, 0⟩) 2).1.raw_data,
      1 ≤ x ∧ x ≤ 6) :=
  die_rolls_spec (initSession ⟨fun i => i, 0⟩) 2
